import Mathlib

/-!
Verification development for the `prettyprint` rendering core.

The definitions below are a shallow embedding of the repository's source:
`frame.rs` (layout / gutter state), `colorize.rs` (color renderers),
`terminal.rs` (plain ANSI color translation) and `printer.rs`
(`InteractivePrinter::print_line`, header/footer rules, character wrap).
Rust `usize` values are modelled as `Nat`; byte buffers as `List Nat`
(each element a byte value 0..255); Rust `String::len` (UTF-8 byte count)
is modelled by `strBytes`, and `.chars().count()` by `List.length` on the
underlying character list.
-/

namespace Prettyprint

set_option maxRecDepth 8000

/-! ## Decimal formatting helpers (Rust `format!` of a `usize`) -/

/-- One decimal digit as a character. -/
def digitChar (d : Nat) : Char :=
  if d = 0 then '0' else if d = 1 then '1' else if d = 2 then '2'
  else if d = 3 then '3' else if d = 4 then '4' else if d = 5 then '5'
  else if d = 6 then '6' else if d = 7 then '7' else if d = 8 then '8' else '9'

/-- Fueled decimal expansion, most significant digit first. -/
def natCharsAux : Nat → Nat → List Char
  | 0, _ => []
  | fuel + 1, n =>
    if n < 10 then [digitChar n]
    else natCharsAux fuel (n / 10) ++ [digitChar (n % 10)]

/-- The decimal representation of `n`, as Rust's `format!` with `{}` renders a `usize`. -/
def natChars (n : Nat) : List Char := natCharsAux (n + 1) n

/-- Number of decimal digits of `n`. -/
def digitsCount (n : Nat) : Nat := (natChars n).length

/-- UTF-8 byte length of a character list. -/
def bytesOf : List Char → Nat
  | [] => 0
  | c :: cs => c.utf8Size + bytesOf cs

/-- UTF-8 byte length of a string: the model of Rust's `String::len`. -/
def strBytes (s : String) : Nat := bytesOf s.data

/-- Rust `format!` with the spec `{:4}`: decimal digits of `n`, left-padded
with spaces to a minimum width of 4. -/
def fmtLnum (n : Nat) : String :=
  ⟨List.replicate (4 - (natChars n).length) ' ' ++ natChars n⟩

theorem digitChar_utf8Size (d : Nat) : (digitChar d).utf8Size = 1 := by
  unfold digitChar
  repeat' split
  all_goals decide

theorem natCharsAux_utf8Size :
    ∀ fuel n c, c ∈ natCharsAux fuel n → c.utf8Size = 1 := by
  intro fuel
  induction fuel with
  | zero => intro n c h; simp [natCharsAux] at h
  | succ fuel ih =>
    intro n c h
    unfold natCharsAux at h
    split at h
    · simp at h; subst h; exact digitChar_utf8Size n
    · rcases List.mem_append.mp h with h' | h'
      · exact ih _ _ h'
      · simp at h'; subst h'; exact digitChar_utf8Size (n % 10)

theorem bytesOf_all_one {l : List Char} (h : ∀ c ∈ l, c.utf8Size = 1) :
    bytesOf l = l.length := by
  induction l with
  | nil => rfl
  | cons c cs ih =>
    simp only [bytesOf, List.length_cons]
    rw [h c (List.mem_cons_self c cs), ih fun x hx => h x (List.mem_cons_of_mem c hx)]
    omega

theorem strBytes_fmtLnum (n : Nat) : strBytes (fmtLnum n) = (fmtLnum n).length := by
  have h : ∀ c ∈ (fmtLnum n).data, c.utf8Size = 1 := by
    intro c hc
    simp only [fmtLnum] at hc
    rcases List.mem_append.mp hc with h' | h'
    · have := List.eq_of_mem_replicate h'
      subst this; decide
    · exact natCharsAux_utf8Size _ _ _ h'
  exact bytesOf_all_one h

theorem length_fmtLnum (n : Nat) : (fmtLnum n).length = max 4 (digitsCount n) := by
  have : (fmtLnum n).length = (4 - (natChars n).length) + (natChars n).length := by
    simp [fmtLnum, String.length]
  rw [this]
  unfold digitsCount
  omega

theorem natCharsAux_length_le :
    ∀ fuel k n, n < fuel → n < 10 ^ k → (natCharsAux fuel n).length ≤ max 1 k := by
  intro fuel
  induction fuel with
  | zero => intro k n h; omega
  | succ fuel ih =>
    intro k n hfuel hk
    unfold natCharsAux
    split
    · simp
    · rename_i hn
      have h10 : 10 ≤ n := by omega
      have hkpos : 2 ≤ k := by
        by_contra hlt
        interval_cases k <;> omega
      have hdivfuel : n / 10 < fuel := by
        have : n / 10 < n := Nat.div_lt_self (by omega) (by omega)
        omega
      have hdivk : n / 10 < 10 ^ (k - 1) := by
        rw [Nat.div_lt_iff_lt_mul (by omega)]
        have : (10 : Nat) ^ (k - 1) * 10 = 10 ^ k := by
          rw [← pow_succ]
          congr 1
          omega
        omega
      have := ih (k - 1) (n / 10) hdivfuel hdivk
      simp only [List.length_append, List.length_cons, List.length_nil]
      omega

theorem natCharsAux_length_ge :
    ∀ fuel k n, n < fuel → 10 ^ k ≤ n → k + 1 ≤ (natCharsAux fuel n).length := by
  intro fuel
  induction fuel with
  | zero => intro k n h; omega
  | succ fuel ih =>
    intro k n hfuel hk
    unfold natCharsAux
    split
    · rename_i hn
      have : k = 0 := by
        by_contra hne
        have h1 : 1 ≤ k := by omega
        have : (10 : Nat) ^ 1 ≤ 10 ^ k := Nat.pow_le_pow_right (by omega) h1
        simp at this
        omega
      simp [this]
    · rename_i hn
      have h10 : 10 ≤ n := by omega
      have hdivfuel : n / 10 < fuel := by
        have : n / 10 < n := Nat.div_lt_self (by omega) (by omega)
        omega
      rcases Nat.eq_zero_or_pos k with hk0 | hkpos
      · simp only [List.length_append, List.length_cons, List.length_nil]
        omega
      · have hdivk : 10 ^ (k - 1) ≤ n / 10 := by
          rw [Nat.le_div_iff_mul_le (by omega)]
          have : (10 : Nat) ^ (k - 1) * 10 = 10 ^ k := by
            rw [← pow_succ]
            congr 1
            omega
          omega
        have := ih (k - 1) (n / 10) hdivfuel hdivk
        simp only [List.length_append, List.length_cons, List.length_nil]
        omega

theorem digitsCount_le_four {n : Nat} (h : n ≤ 9999) : digitsCount n ≤ 4 := by
  have := natCharsAux_length_le (n + 1) 4 n (by omega) (by norm_num; omega)
  simpa [digitsCount, natChars] using this

theorem digitsCount_ge_five {n : Nat} (h : 10000 ≤ n) : 5 ≤ digitsCount n := by
  have := natCharsAux_length_ge (n + 1) 4 n (by omega) (by norm_num; omega)
  simpa [digitsCount, natChars] using this

/-! ## `frame.rs`: the `Frame` layout state -/

/-- The `Frame` struct of `frame.rs`: gutter separator (when the gutter is
present), terminal width, current line-number digit width and separator
width. -/
structure Frame where
  gutter : Option String
  term_width : Nat
  line_number_width : Nat
  separator_width : Nat
deriving DecidableEq

def LNUM_DIGITS : Nat := 4

/-- `Frame::new`: chooses the separator from the grid flag and suppresses the
gutter entirely when numbers are off or the terminal is too narrow. -/
def Frame.new (term_width : Nat) (numbers grid : Bool) : Frame :=
  let separator := if grid then " │ " else " "
  let sepW := if grid then 3 else 1
  let term_width_needed := LNUM_DIGITS + sepW + 5
  if numbers && decide (term_width_needed ≤ term_width) then
    { gutter := some separator, term_width := term_width,
      line_number_width := LNUM_DIGITS, separator_width := sepW }
  else
    { gutter := none, term_width := term_width,
      line_number_width := 0, separator_width := 0 }

/-- `Frame::numbered_gutter`: formats the line number with `format!` spec
`{:4}`, stores the resulting width and returns the decoration; returns
`none` (and leaves the frame unchanged) when the gutter is suppressed. -/
def Frame.numbered_gutter (f : Frame) (line_number : Nat) : Option String × Frame :=
  match f.gutter with
  | none => (none, f)
  | some separator =>
    let n := fmtLnum line_number
    (some (n ++ separator), { f with line_number_width := n.length })

/-- `Frame::blank_gutter`: spaces of the stored digit width plus the separator. -/
def Frame.blank_gutter (f : Frame) : Option String :=
  f.gutter.map fun separator => String.mk (List.replicate f.line_number_width ' ') ++ separator

/-- `Frame::horizontal_line`: a full-width box-drawing rule with the junction
character after the line-number columns.  The two `Nat` subtractions model
the unguarded `usize` subtractions of the source. -/
def Frame.horizontal_line (f : Frame) (grid_char : Char) : String :=
  if f.line_number_width = 0 then
    String.mk (List.replicate f.term_width '─')
  else
    let pfxWidth := f.line_number_width + 1
    let suffix_width := f.term_width - pfxWidth - 1
    String.mk (List.replicate pfxWidth '─' ++ [grid_char] ++ List.replicate suffix_width '─')

/-- `Frame::cursor_max`: remaining body width; the `Nat` subtraction models
the unguarded `usize` subtraction of the source. -/
def Frame.cursor_max (f : Frame) : Nat :=
  f.term_width - (f.line_number_width + f.separator_width)

/-- A render session: the frame after a sequence of `numbered_gutter` calls. -/
def Frame.runNumbers (f : Frame) (ns : List Nat) : Frame :=
  ns.foldl (fun f n => (f.numbered_gutter n).2) f

theorem numbered_gutter_fields (f : Frame) (n : Nat) :
    ((f.numbered_gutter n).2).gutter = f.gutter ∧
    ((f.numbered_gutter n).2).term_width = f.term_width ∧
    ((f.numbered_gutter n).2).separator_width = f.separator_width := by
  cases hg : f.gutter <;> simp [Frame.numbered_gutter, hg]

theorem numbered_gutter_width (f : Frame) (n : Nat) (h : f.gutter.isSome) :
    ((f.numbered_gutter n).2).line_number_width = max 4 (digitsCount n) := by
  unfold Frame.numbered_gutter
  cases hg : f.gutter with
  | none => rw [hg] at h; simp at h
  | some sep => simp [length_fmtLnum]

theorem runNumbers_fields (ns : List Nat) (f : Frame) :
    ((f.runNumbers ns).gutter = f.gutter ∧
     (f.runNumbers ns).term_width = f.term_width ∧
     (f.runNumbers ns).separator_width = f.separator_width) := by
  induction ns generalizing f with
  | nil => simp [Frame.runNumbers]
  | cons n ns ih =>
    have h1 := numbered_gutter_fields f n
    have h2 := ih ((f.numbered_gutter n).2)
    simp only [Frame.runNumbers, List.foldl_cons] at *
    exact ⟨h2.1.trans h1.1, h2.2.1.trans h1.2.1, h2.2.2.trans h1.2.2⟩

theorem runNumbers_width (ns : List Nat) (f : Frame) (h : f.gutter.isSome) :
    (f.runNumbers ns).line_number_width = f.line_number_width ∨
    ∃ n ∈ ns, (f.runNumbers ns).line_number_width = max 4 (digitsCount n) := by
  induction ns generalizing f with
  | nil => left; simp [Frame.runNumbers]
  | cons n ns ih =>
    have hg : ((f.numbered_gutter n).2).gutter.isSome := by
      rw [(numbered_gutter_fields f n).1]; exact h
    have hw := numbered_gutter_width f n h
    simp only [Frame.runNumbers, List.foldl_cons] at *
    rcases ih ((f.numbered_gutter n).2) hg with h1 | ⟨m, hm, h1⟩
    · right; exact ⟨n, List.mem_cons_self n ns, h1.trans hw⟩
    · right; exact ⟨m, List.mem_cons_of_mem n hm, h1⟩

theorem new_eq_grid (tw : Nat) (numbers : Bool) :
    Frame.new tw numbers true =
      if numbers && decide (12 ≤ tw) then
        { gutter := some " │ ", term_width := tw, line_number_width := 4, separator_width := 3 }
      else
        { gutter := none, term_width := tw, line_number_width := 0, separator_width := 0 } := rfl

theorem new_eq_nogrid (tw : Nat) (numbers : Bool) :
    Frame.new tw numbers false =
      if numbers && decide (10 ≤ tw) then
        { gutter := some " ", term_width := tw, line_number_width := 4, separator_width := 1 }
      else
        { gutter := none, term_width := tw, line_number_width := 0, separator_width := 0 } := rfl

theorem new_term_width (tw : Nat) (numbers grid : Bool) :
    (Frame.new tw numbers grid).term_width = tw := by
  cases grid
  · rw [new_eq_nogrid]; split <;> rfl
  · rw [new_eq_grid]; split <;> rfl

theorem new_present_spec (tw : Nat) (numbers grid : Bool)
    (h : ((Frame.new tw numbers grid).gutter).isSome) :
    (Frame.new tw numbers grid).line_number_width = 4 ∧
    (Frame.new tw numbers grid).separator_width = (if grid then 3 else 1) ∧
    4 + (if grid then 3 else 1) + 5 ≤ tw := by
  cases grid
  · rw [new_eq_nogrid] at h ⊢
    split at h
    · rename_i hc
      simp only [Bool.and_eq_true, decide_eq_true_eq] at hc
      rw [if_pos (by simp [hc.1, hc.2])]
      refine ⟨rfl, by norm_num, by norm_num; omega⟩
    · simp at h
  · rw [new_eq_grid] at h ⊢
    split at h
    · rename_i hc
      simp only [Bool.and_eq_true, decide_eq_true_eq] at hc
      rw [if_pos (by simp [hc.1, hc.2])]
      refine ⟨rfl, by norm_num, by norm_num; omega⟩
    · simp at h

/-- Claim C1 (amended).  With a present gutter: the digit width stays at 4
for every session in which all rendered line numbers are ≤ 9999, and the
first line number ≥ 10000 widens it to that number's decimal digit count;
but each `numbered_gutter` call stores `max 4 (digit count)` afresh, so the
width is not latched and a later smaller line number narrows it again. -/
theorem c1_gutter_digit_width (tw : Nat) (grid : Bool) (ns : List Nat) (n : Nat)
    (h : ((Frame.new tw true grid).gutter).isSome) :
    ((∀ m ∈ ns, m ≤ 9999) →
      ((Frame.new tw true grid).runNumbers ns).line_number_width = 4) ∧
    (10000 ≤ n →
      ((((Frame.new tw true grid).runNumbers ns).numbered_gutter n).2).line_number_width
        = digitsCount n) ∧
    ((((Frame.new tw true grid).runNumbers ns).numbered_gutter n).2).line_number_width
      = max 4 (digitsCount n) := by
  have hg : (((Frame.new tw true grid).runNumbers ns).gutter).isSome := by
    rw [(runNumbers_fields ns (Frame.new tw true grid)).1]; exact h
  have hw0 := (new_present_spec tw true grid h).1
  have hrecompute := numbered_gutter_width ((Frame.new tw true grid).runNumbers ns) n hg
  refine ⟨?_, ?_, hrecompute⟩
  · intro hsmall
    rcases runNumbers_width ns (Frame.new tw true grid) h with h1 | ⟨m, hm, h1⟩
    · rw [h1, hw0]
    · rw [h1]
      have := digitsCount_le_four (hsmall m hm)
      omega
  · intro hbig
    rw [hrecompute]
    have := digitsCount_ge_five hbig
    omega

theorem c1_gutter_digit_width_witness :
    ((Frame.new 12 true true).runNumbers [1, 9999]).line_number_width = 4 ∧
    ((((Frame.new 12 true true).runNumbers [1, 9999]).numbered_gutter 10000).2).line_number_width
      = digitsCount 10000 :=
  ⟨(c1_gutter_digit_width 12 true [1, 9999] 10000 (by decide)).1 (by decide),
   (c1_gutter_digit_width 12 true [1, 9999] 10000 (by decide)).2.1 (by decide)⟩

/-- Claim C1 counterexample: after `numbered_gutter 10000` has widened the
stored digit width to 5, the subsequent call `numbered_gutter 1` narrows it
back to 4 — the width is not a one-way latch. -/
theorem c1_narrowing_counterexample :
    ((((Frame.new 20 true true).numbered_gutter 10000).2).line_number_width = 5) ∧
    (((((Frame.new 20 true true).numbered_gutter 10000).2).numbered_gutter 1).2).line_number_width = 4 ∧
    (((((Frame.new 20 true true).numbered_gutter 10000).2).numbered_gutter 1).2).line_number_width
      < (((Frame.new 20 true true).numbered_gutter 10000).2).line_number_width := by
  decide

/-- Claim C2: a gutter is produced iff line numbers are enabled and
`terminal_width ≥ 4 + separator_width + 5` with separator width 3 under the
grid and 1 otherwise; when suppressed, both the numbered and the blank
gutter (numbers and vertical border) are `none`; width 11 with numbers+grid
suppresses the gutter, width 12 produces it. -/
theorem c2_gutter_presence (tw k : Nat) (numbers grid : Bool) :
    (((Frame.new tw numbers grid).gutter).isSome
      = (numbers && decide (4 + (if grid then 3 else 1) + 5 ≤ tw))) ∧
    (((Frame.new tw numbers grid).numbered_gutter k).1.isSome
      = ((Frame.new tw numbers grid).gutter).isSome) ∧
    (((Frame.new tw numbers grid).blank_gutter).isSome
      = ((Frame.new tw numbers grid).gutter).isSome) ∧
    ((Frame.new 11 true true).numbered_gutter 9999).1 = none ∧
    ((Frame.new 12 true true).numbered_gutter 9999).1.isSome = true := by
  refine ⟨?_, ?_, ?_, by decide, by decide⟩
  · cases grid
    · rw [new_eq_nogrid]
      norm_num
      split
      · rename_i hc; simp_all
      · rename_i hc; simp_all
    · rw [new_eq_grid]
      norm_num
      split
      · rename_i hc; simp_all
      · rename_i hc; simp_all
  · cases hg : (Frame.new tw numbers grid).gutter <;>
      simp [Frame.numbered_gutter, hg]
  · cases hg : (Frame.new tw numbers grid).gutter <;>
      simp [Frame.blank_gutter, hg]

/-- Claim C10: on every frame with a present gutter reached by
`numbered_gutter` calls whose line numbers all satisfy
`max 4 (digit count) + 3 ≤ term_width`, the unguarded `usize` subtractions
of `horizontal_line` (`term_width - (line_number_width + 1) - 1`) and
`cursor_max` (`term_width - (line_number_width + separator_width)`) do not
underflow; and there is no internal guard: a line number with more digits
drives both minuends below their subtrahends. -/
theorem c10_unguarded_subtractions :
    (∀ (tw : Nat) (grid : Bool) (ns : List Nat),
      ((Frame.new tw true grid).gutter).isSome →
      (∀ n ∈ ns, max 4 (digitsCount n) + 3 ≤ tw) →
      ((Frame.new tw true grid).runNumbers ns).line_number_width + 1 + 1
          ≤ ((Frame.new tw true grid).runNumbers ns).term_width ∧
        ((Frame.new tw true grid).runNumbers ns).line_number_width
            + ((Frame.new tw true grid).runNumbers ns).separator_width
          ≤ ((Frame.new tw true grid).runNumbers ns).term_width) ∧
    (((Frame.new 12 true true).runNumbers [99999999999]).term_width
        < ((Frame.new 12 true true).runNumbers [99999999999]).line_number_width + 1 + 1 ∧
      ((Frame.new 12 true true).runNumbers [99999999999]).term_width
        < ((Frame.new 12 true true).runNumbers [99999999999]).line_number_width
            + ((Frame.new 12 true true).runNumbers [99999999999]).separator_width) := by
  constructor
  · intro tw grid ns h hn
    obtain ⟨hw0, hsep, htw⟩ := new_present_spec tw true grid h
    obtain ⟨-, hftw, hfsep⟩ := runNumbers_fields ns (Frame.new tw true grid)
    rw [hftw, new_term_width, hfsep, hsep]
    have hsep3 : (if grid then 3 else 1) ≤ 3 := by split <;> omega
    rcases runNumbers_width ns (Frame.new tw true grid) h with h1 | ⟨m, hm, h1⟩
    · rw [h1, hw0]; constructor <;> omega
    · rw [h1]
      have := hn m hm
      constructor <;> omega
  · decide

theorem c10_unguarded_subtractions_witness :
    ((Frame.new 12 true true).runNumbers [9999]).line_number_width + 1 + 1
        ≤ ((Frame.new 12 true true).runNumbers [9999]).term_width ∧
      ((Frame.new 12 true true).runNumbers [9999]).line_number_width
          + ((Frame.new 12 true true).runNumbers [9999]).separator_width
        ≤ ((Frame.new 12 true true).runNumbers [9999]).term_width :=
  c10_unguarded_subtractions.1 12 true [9999] (by decide) (by decide)

/-! ## `colorize.rs` and `terminal.rs`: color translation -/

/-- `syntect::highlighting::Color`: an RGBA quadruple of bytes (0..255). -/
structure SublimeColor where
  r : Nat
  g : Nat
  b : Nat
  a : Nat
deriving DecidableEq

/-- `ansi_term::Colour`, restricted to the variants the repository produces. -/
inductive AnsiColour where
  | Fixed (n : Nat)
  | RGB (r g b : Nat)
deriving DecidableEq

/-- `syntect` font flags of a `Style`, plus the foreground color. -/
structure SublimeStyle where
  foreground : SublimeColor
  bold : Bool
  underline : Bool
  italic : Bool
deriving DecidableEq

def SUBLIME_DEFAULT_GUTTER_COLOR : SublimeColor := ⟨68, 68, 68, 255⟩

def ANSI_DEFAULT_GUTTER_COLOR : AnsiColour := .Fixed 238

/-- Absolute difference of naturals. -/
def distN (a b : Nat) : Nat := if a ≤ b then b - a else a - b

/-- The index (0..5) and value of the 6-level color-cube channel nearest
to `v`; earlier levels win ties. -/
def nearestCube (v : Nat) : Nat × Nat :=
  ([(1, 95), (2, 135), (3, 175), (4, 215), (5, 255)] : List (Nat × Nat)).foldl
    (fun best il => if distN v il.2 < distN v best.2 then il else best) (0, 0)

/-- The step (0..23) and value of the 24-step grayscale ramp entry nearest
to `v`; earlier steps win ties. -/
def nearestGray (v : Nat) : Nat × Nat :=
  ((List.range 24).map fun k => (k, 8 + 10 * k)).foldl
    (fun best kv => if distN v kv.2 < distN v best.2 then kv else best) (0, 8)

/-- Modelled from the spec: the `ansi_colours` crate (an external dependency,
not in `src/`) quantizes an RGB triple to the "nearest match in the 6×6×6
color cube plus 24-step grayscale ramp" of the standard 256-color palette. -/
def ansi256_from_rgb (r g b : Nat) : Nat :=
  let cr := nearestCube r
  let cg := nearestCube g
  let cb := nearestCube b
  let cubeDist := distN r cr.2 ^ 2 + distN g cg.2 ^ 2 + distN b cb.2 ^ 2
  let gray := nearestGray ((r + g + b) / 3)
  let grayDist := distN r gray.2 ^ 2 + distN g gray.2 ^ 2 + distN b gray.2 ^ 2
  if grayDist < cubeDist then 232 + gray.1
  else 16 + 36 * cr.1 + 6 * cg.1 + cb.1

/-- `terminal.rs`'s `to_ansi_color`: the plain translation rule with no
special case — literal RGB in true-color mode, quantized palette index
otherwise. -/
def terminal_to_ansi_color (color : SublimeColor) (true_color : Bool) : AnsiColour :=
  if true_color then .RGB color.r color.g color.b
  else .Fixed (ansi256_from_rgb color.r color.g color.b)

/-- `colorize.rs`'s `to_ansi_color`: first compares against the default
gutter triple and returns the legacy fixed gray for it, in both modes; any
other color takes the normal rule. -/
def colorize_to_ansi_color (color : SublimeColor) (true_color : Bool) : AnsiColour :=
  if color = SUBLIME_DEFAULT_GUTTER_COLOR then ANSI_DEFAULT_GUTTER_COLOR
  else if true_color then .RGB color.r color.g color.b
  else .Fixed (ansi256_from_rgb color.r color.g color.b)

/-- The decimal rendering of a `Nat`, as a string. -/
def digitsStr (n : Nat) : String := ⟨natChars n⟩

/-- The SGR parameter list `ansi_term` emits for a foreground color:
`38;5;n` for a fixed palette index, `38;2;r;g;b` for literal RGB. -/
def fgEscapeParams : AnsiColour → String
  | .Fixed n => "38;5;" ++ digitsStr n
  | .RGB r g b => "38;2;" ++ digitsStr r ++ ";" ++ digitsStr g ++ ";" ++ digitsStr b

/-- `colorize.rs`'s `ColorizePlain` (non-HTML): all three operations return
their input unchanged, and `region` ignores the style entirely. -/
def ColorizePlain.region (_style : SublimeStyle) (text : String) : String := text

def ColorizePlain.filename (name : String) : String := name

def ColorizePlain.gutter (gutter_text : String) : String := gutter_text

/-- Claim C5: the Plain color-renderer variant is the identity on text for
all three operations, for every style (any combination of bold, underline
and italic) and every input string. -/
theorem c5_plain_identity (style : SublimeStyle) (text : String) :
    ColorizePlain.region style text = text ∧
    ColorizePlain.filename text = text ∧
    ColorizePlain.gutter text = text :=
  ⟨rfl, rfl, rfl⟩

/-- Claim C7 counterexample: with true color enabled, the foreground color
(68,68,68,255) — the default gutter triple — is translated to the fixed
palette index 238, not to a literal RGB escape. -/
theorem c7_truecolor_counterexample :
    colorize_to_ansi_color ⟨68, 68, 68, 255⟩ true = .Fixed 238 ∧
    colorize_to_ansi_color ⟨68, 68, 68, 255⟩ true ≠ .RGB 68 68 68 := by
  decide

/-- Claim C7 (amended): for every foreground color other than the default
gutter triple (68,68,68,255), the translation emits literal RGB parameters
when true color is on and a quantized 256-color index when it is off; in
particular RGB (255,0,0) quantizes to index 196 (parameters `38;5;196`)
with true color off, and yields the literal parameters `38;2;255;0;0` with
true color on. -/
theorem c7_color_translation (c : SublimeColor)
    (h : c ≠ SUBLIME_DEFAULT_GUTTER_COLOR) :
    (colorize_to_ansi_color c true = .RGB c.r c.g c.b) ∧
    (colorize_to_ansi_color c false = .Fixed (ansi256_from_rgb c.r c.g c.b)) ∧
    ansi256_from_rgb 255 0 0 = 196 ∧
    colorize_to_ansi_color ⟨255, 0, 0, 255⟩ false = .Fixed 196 ∧
    fgEscapeParams (colorize_to_ansi_color ⟨255, 0, 0, 255⟩ false) = "38;5;196" ∧
    colorize_to_ansi_color ⟨255, 0, 0, 255⟩ true = .RGB 255 0 0 ∧
    fgEscapeParams (colorize_to_ansi_color ⟨255, 0, 0, 255⟩ true) = "38;2;255;0;0" := by
  refine ⟨?_, ?_, by decide, by decide, by decide, by decide, by decide⟩ <;>
    simp [colorize_to_ansi_color, h]

theorem c7_color_translation_witness :
    colorize_to_ansi_color ⟨255, 0, 0, 255⟩ true = .RGB 255 0 0 :=
  (c7_color_translation ⟨255, 0, 0, 255⟩ (by decide)).1

/-- Claim C8: the translation returns the legacy fixed-palette gray (index
238) for the default gutter triple (68,68,68,255) in both true-color and
256-color modes, while every other color goes through the normal rule —
the rule of `terminal.rs`'s `to_ansi_color`. -/
theorem c8_legacy_gutter_gray (c : SublimeColor) (tc : Bool)
    (h : c ≠ SUBLIME_DEFAULT_GUTTER_COLOR) :
    colorize_to_ansi_color SUBLIME_DEFAULT_GUTTER_COLOR tc = .Fixed 238 ∧
    colorize_to_ansi_color c tc = terminal_to_ansi_color c tc := by
  constructor
  · simp [colorize_to_ansi_color, ANSI_DEFAULT_GUTTER_COLOR]
  · simp [colorize_to_ansi_color, terminal_to_ansi_color, h]

theorem c8_legacy_gutter_gray_witness :
    colorize_to_ansi_color SUBLIME_DEFAULT_GUTTER_COLOR false = .Fixed 238 ∧
    colorize_to_ansi_color ⟨255, 0, 235, 0⟩ false
      = terminal_to_ansi_color ⟨255, 0, 235, 0⟩ false :=
  c8_legacy_gutter_gray ⟨255, 0, 235, 0⟩ false (by decide)

/-! ## `printer.rs`: `InteractivePrinter` and `print_line` -/

/-- `printer.rs`'s `lnum`: the line number under `format!` spec `{:4}`, or
that many spaces on a continuation row. -/
def lnum (line_number : Nat) (continuation : Bool) : String :=
  let num := fmtLnum line_number
  if continuation then ⟨List.replicate num.length ' '⟩ else num

/-- `InteractivePrinter::new2`'s decoration choice: the grid separator
string and the panel width, or `(none, 0)` when numbers are off or the
terminal is narrower than `nominal_panel_width + grid_str.len() + 5`
(Rust `str::len` is the UTF-8 byte count, modelled by `strBytes`). -/
def new2Decorations (numbers grid : Bool) (term_width : Nat) : Option String × Nat :=
  if numbers
      && decide (LNUM_DIGITS + 1 + strBytes (if grid then " │" else "") + 5 ≤ term_width) then
    (some (if grid then " │" else ""), LNUM_DIGITS + 1)
  else (none, 0)

theorem new2_grid_eq (numbers : Bool) (tw : Nat) :
    new2Decorations numbers true tw =
      if numbers && decide (14 ≤ tw) then (some " │", 5) else (none, 0) := rfl

theorem new2_nogrid_eq (numbers : Bool) (tw : Nat) :
    new2Decorations numbers false tw =
      if numbers && decide (10 ≤ tw) then (some "", 5) else (none, 0) := rfl

/-- Modelled from the spec: `preprocessor.rs`'s `expand_tabs` is not under
`src/`; per the spec it replaces each tab with spaces up to the next tab
stop of the configured width, keeping a running tab-expansion column. -/
def expandTabsAux (w : Nat) : List Char → Nat → List Char × Nat
  | [], cursor => ([], cursor)
  | c :: rest, cursor =>
    if c = '\t' then
      let n := w - cursor % w
      let (out, cur') := expandTabsAux w rest (cursor + n)
      (List.replicate n ' ' ++ out, cur')
    else
      let (out, cur') := expandTabsAux w rest (cursor + 1)
      (c :: out, cur')

def expandTabs (text : String) (w cursor : Nat) : String × Nat :=
  let (out, cur') := expandTabsAux w text.data cursor
  (⟨out⟩, cur')

/-- `InteractivePrinter::preprocess`: tab expansion when `tab_width > 0`,
identity otherwise. -/
def preprocess (tab_width : Nat) (text : String) (cursor : Nat) : String × Nat :=
  if 0 < tab_width then expandTabs text tab_width cursor else (text, cursor)

/-- `text.trim_right_matches(|c| c == '\r' || c == '\n')`. -/
def trimNewlinesRight (s : String) : String :=
  ⟨(s.data.reverse.dropWhile fun c => c == '\r' || c == '\n').reverse⟩

/-- The per-logical-line wrap state: the visible-column cursor, the visible
characters of the open physical row, and the completed physical rows
(visible body characters only; the zero-width ANSI escape passthrough is
not part of the visible row content). -/
structure WrapSt where
  cursor : Nat
  cur : List Char
  rows : List (List Char)

/-- The `while remaining > 0` loop of the character-wrap branch of
`print_line`: split the text at `available = cursor_max - cursor`
characters, closing a physical row on each split.  The fuel returns `none`
exactly when the source loop would not terminate (`cursor_max = 0` with
text remaining). -/
def wrapText (cmax : Nat) : Nat → WrapSt → List Char → Option WrapSt
  | 0, _, _ => none
  | fuel + 1, st, text =>
    if text.length = 0 then some st
    else
      if text.length ≤ cmax - st.cursor then
        some { cursor := st.cursor + text.length, cur := st.cur ++ text, rows := st.rows }
      else
        wrapText cmax fuel
          { cursor := 0, cur := [],
            rows := st.rows ++ [st.cur ++ text.take (cmax - st.cursor)] }
          (text.drop (cmax - st.cursor))

/-- The chunk loop of the character-wrap branch: ANSI escape chunks pass
through with zero visible width; regular text chunks are newline-trimmed,
preprocessed (threading the tab-expansion column `cursor_total`) and fed to
the wrap loop. -/
def wrapChunks (tab_width cmax : Nat) :
    WrapSt × Nat → List (String × Bool) → Option (WrapSt × Nat)
  | stc, [] => some stc
  | (st, ctotal), (text, isEscape) :: rest =>
    if isEscape then wrapChunks tab_width cmax (st, ctotal) rest
    else
      match wrapText cmax
          (2 * (preprocess tab_width (trimNewlinesRight text) ctotal).1.data.length + 2)
          st (preprocess tab_width (trimNewlinesRight text) ctotal).1.data with
      | none => none
      | some st' =>
        wrapChunks tab_width cmax
          (st', (preprocess tab_width (trimNewlinesRight text) ctotal).2) rest

/-- `cursor_max` as `print_line` computes it: the full terminal width,
less `deco.len() + 1` (UTF-8 byte length) when decorations are present. -/
def charWrapCursorMax (tw : Nat) (decorations : Option String) (line_number : Nat) : Nat :=
  match decorations with
  | none => tw
  | some grid_str => tw - (strBytes (lnum line_number false ++ grid_str) + 1)

/-- The visible body characters of each physical row that the character-wrap
branch of `print_line` emits for one logical line (the final `write!` of a
newline closes the open row). -/
def charWrapBody (tw tab_width : Nat) (decorations : Option String) (line_number : Nat)
    (chunks : List (String × Bool)) : Option (List (List Char)) :=
  (wrapChunks tab_width (charWrapCursorMax tw decorations line_number)
      (⟨0, [], []⟩, 0) chunks).map fun stc => stc.1.rows ++ [stc.1.cur]

/-- Total display width of the gutter decoration (line number, separator and
trailing space) on a decorated row; 0 when the gutter is suppressed. -/
def gutterWidth (decorations : Option String) (line_number : Nat) : Nat :=
  match decorations with
  | none => 0
  | some grid_str => (lnum line_number false ++ grid_str ++ " ").length

/-- The physical rows of one logical line in character-wrap mode, with the
gutter decorations attached: the numbered decoration on the first row and
the blank (`panel_wrap`) decoration on every continuation row. -/
def charWrapRows (tw tab_width : Nat) (decorations : Option String) (line_number : Nat)
    (chunks : List (String × Bool)) : Option (List String) :=
  match charWrapBody tw tab_width decorations line_number chunks with
  | none => none
  | some bodyRows =>
    some <|
      match decorations, bodyRows with
      | none, rs => rs.map fun r => (⟨r⟩ : String)
      | some _, [] => []
      | some grid_str, r :: rs =>
        (lnum line_number false ++ grid_str ++ " " ++ (⟨r⟩ : String)) ::
          rs.map fun r => lnum line_number true ++ grid_str ++ " " ++ (⟨r⟩ : String)

/-- `print_horizontal_line` of `printer.rs`: a full-width rule, with the
junction character after the panel columns when the panel is present. -/
def printerHorizontalLine (panel_width tw : Nat) (grid_char : Char) : String :=
  if panel_width = 0 then ⟨List.replicate tw '─'⟩
  else ⟨List.replicate panel_width '─' ++ [grid_char] ++
        List.replicate (tw - (panel_width + 1)) '─'⟩

/-- `print_footer`: a bottom rule with junction `┴` when the grid is on and
the content is text; nothing otherwise. -/
def printFooterRule (grid is_text : Bool) (panel_width tw : Nat) : Option String :=
  if grid && is_text then some (printerHorizontalLine panel_width tw '┴') else none

/-- Ordered concatenation of the texts of a span list. -/
def concatTexts : List (SublimeStyle × String) → String
  | [] => ""
  | (_, t) :: rs => t ++ concatTexts rs

/-- `line.bytes().next_back() == Some(b'\n')`: the final UTF-8 byte of a
multi-byte character is a continuation byte (≥ 0x80), so the last byte is
the newline byte exactly when the last character is `'\n'`. -/
def lastCharIsLF (line : String) : Bool :=
  match line.data.getLast? with
  | some c => c == '\n'
  | none => false

/-- One span of the wrap-mode-`None` loop: preprocess the span text
(threading `cursor_total`) and append its rendering to the output. -/
def noneBodyStep (tab_width : Nat) (encode : SublimeStyle → String → String)
    (acc : String × Nat) (r : SublimeStyle × String) : String × Nat :=
  (acc.1 ++ encode r.1 (preprocess tab_width r.2 acc.2).1,
   (preprocess tab_width r.2 acc.2).2)

/-- The wrap-mode-`None` body of `print_line`: every span is preprocessed
(threading `cursor_total`) and emitted through the color renderer `encode`,
then a single newline is appended only when the line's last byte is not a
newline. -/
def printLineNoneBody (tab_width : Nat) (line : String)
    (regions : List (SublimeStyle × String))
    (encode : SublimeStyle → String → String) : String :=
  (regions.foldl (noneBodyStep tab_width encode) ("", 0)).1
    ++ (if lastCharIsLF line then "" else "\n")

/-! ## `print_line` content decoding -/

/-- `content_inspector::ContentType` (the categories `print_line` matches). -/
inductive ContentType where
  | BINARY
  | UTF_8
  | UTF_8_BOM
  | UTF_16LE
  | UTF_16BE
  | UTF_32LE
  | UTF_32BE
deriving DecidableEq

/-- Group a byte list into 16-bit units; fails on an odd trailing byte. -/
def utf16Units (le : Bool) : List Nat → Option (List Nat)
  | [] => some []
  | [_] => none
  | b0 :: b1 :: rest =>
    let u := if le then b0 + 256 * b1 else 256 * b0 + b1
    (utf16Units le rest).map (u :: ·)

/-- Strict UTF-16 unit sequence decoding: an unpaired surrogate fails. -/
def utf16Chars : List Nat → Option (List Char)
  | [] => some []
  | u :: rest =>
    if u < 0xD800 ∨ 0xE000 ≤ u then (utf16Chars rest).map (Char.ofNat u :: ·)
    else if u < 0xDC00 then
      match rest with
      | [] => none
      | v :: rest' =>
        if 0xDC00 ≤ v ∧ v < 0xE000 then
          (utf16Chars rest').map
            (Char.ofNat (0x10000 + (u - 0xD800) * 0x400 + (v - 0xDC00)) :: ·)
        else none
    else none

/-- Strict UTF-16 decoding of a byte buffer (the `encoding` crate's
`UTF_16LE/BE.decode` with `DecoderTrap::Strict`). -/
def utf16Decode (le : Bool) (bytes : List Nat) : Option String :=
  (utf16Units le bytes).bind fun us => (utf16Chars us).map fun cs => (⟨cs⟩ : String)

def replacementChar : Char := '�'

/-- Is the byte a UTF-8 continuation byte? -/
def contB (b : Nat) : Bool := decide (0x80 ≤ b) && decide (b ≤ 0xBF)

/-- One step per emitted character of lossy UTF-8 decoding
(`String::from_utf8_lossy`): each maximal invalid subpart becomes one
replacement character.  The fuel only serves termination; every step
consumes at least one byte, so `length + 1` fuel always suffices. -/
def utf8LossyAux : Nat → List Nat → List Char
  | 0, _ => []
  | fuel + 1, bytes =>
    match bytes with
    | [] => []
    | b :: rest =>
      if b < 0x80 then Char.ofNat b :: utf8LossyAux fuel rest
      else if b < 0xC2 then replacementChar :: utf8LossyAux fuel rest
      else if b ≤ 0xDF then
        match rest with
        | [] => [replacementChar]
        | c1 :: r2 =>
          if contB c1 then
            Char.ofNat ((b - 0xC0) * 0x40 + (c1 - 0x80)) :: utf8LossyAux fuel r2
          else replacementChar :: utf8LossyAux fuel rest
      else if b ≤ 0xEF then
        let lo1 := if b = 0xE0 then 0xA0 else 0x80
        let hi1 := if b = 0xED then 0x9F else 0xBF
        match rest with
        | [] => [replacementChar]
        | c1 :: r2 =>
          if lo1 ≤ c1 ∧ c1 ≤ hi1 then
            match r2 with
            | [] => [replacementChar]
            | c2 :: r3 =>
              if contB c2 then
                Char.ofNat ((b - 0xE0) * 0x1000 + (c1 - 0x80) * 0x40 + (c2 - 0x80))
                  :: utf8LossyAux fuel r3
              else replacementChar :: utf8LossyAux fuel r2
          else replacementChar :: utf8LossyAux fuel rest
      else if b ≤ 0xF4 then
        let lo1 := if b = 0xF0 then 0x90 else 0x80
        let hi1 := if b = 0xF4 then 0x8F else 0xBF
        match rest with
        | [] => [replacementChar]
        | c1 :: r2 =>
          if lo1 ≤ c1 ∧ c1 ≤ hi1 then
            match r2 with
            | [] => [replacementChar]
            | c2 :: r3 =>
              if contB c2 then
                match r3 with
                | [] => [replacementChar]
                | c3 :: r4 =>
                  if contB c3 then
                    Char.ofNat ((b - 0xF0) * 0x40000 + (c1 - 0x80) * 0x1000
                        + (c2 - 0x80) * 0x40 + (c3 - 0x80)) :: utf8LossyAux fuel r4
                  else replacementChar :: utf8LossyAux fuel r3
              else replacementChar :: utf8LossyAux fuel r2
          else replacementChar :: utf8LossyAux fuel rest
      else replacementChar :: utf8LossyAux fuel rest

def utf8LossyString (bytes : List Nat) : String :=
  ⟨utf8LossyAux (bytes.length + 1) bytes⟩

/-- The decode `match` at the top of `print_line`: `none` means the Binary
arm (immediate `Ok` with no body); UTF-16 is decoded strictly with a fixed
placeholder on failure; everything else is decoded as lossy UTF-8. -/
def decodedLine : ContentType → List Nat → Option String
  | .BINARY, _ => none
  | .UTF_16LE, bytes => some ((utf16Decode true bytes).getD "Invalid UTF-16LE")
  | .UTF_16BE, bytes => some ((utf16Decode false bytes).getD "Invalid UTF-16BE")
  | _, bytes => some (utf8LossyString bytes)

inductive OutputWrap where
  | noneWrap
  | character
deriving DecidableEq

/-- `print_line` end to end, as the text it writes: `some ""` for the Binary
early return and for `out_of_range`; otherwise the decorated body in the
selected wrap mode.  The highlighter, the ANSI chunk iterator and the color
renderer are the external collaborators, passed as functions.  `none` marks
the one divergent configuration of the wrap loop (`cursor_max = 0`). -/
def printLine (content_type : ContentType) (decorations : Option String)
    (tw tab_width : Nat) (wrap : OutputWrap) (out_of_range : Bool)
    (line_number : Nat) (bytes : List Nat)
    (highlight : String → List (SublimeStyle × String))
    (chunksOf : String → List (String × Bool))
    (encode : SublimeStyle → String → String) : Option String :=
  match decodedLine content_type bytes with
  | none => some ""
  | some line =>
    let regions := highlight line
    if out_of_range then some ""
    else
      match wrap with
      | .noneWrap =>
        let deco :=
          match decorations with
          | some grid_str => lnum line_number false ++ grid_str ++ " "
          | none => ""
        some (deco ++ printLineNoneBody tab_width line regions encode)
      | .character =>
        match charWrapRows tw tab_width decorations line_number
            ((regions.map fun r => chunksOf r.2).flatten) with
        | none => none
        | some rows => some (String.intercalate "\n" rows ++ "\n")

/-! ## Row-width invariant of the character-wrap loop -/

theorem bytesOf_append (l1 l2 : List Char) :
    bytesOf (l1 ++ l2) = bytesOf l1 + bytesOf l2 := by
  induction l1 with
  | nil => simp [bytesOf]
  | cons c cs ih => simp [bytesOf, ih]; omega

theorem strBytes_append (s t : String) :
    strBytes (s ++ t) = strBytes s + strBytes t := by
  have : (s ++ t).data = s.data ++ t.data := rfl
  simp [strBytes, this, bytesOf_append]

theorem wrapText_inv (cmax : Nat) :
    ∀ (fuel : Nat) (st : WrapSt) (text : List Char) (st' : WrapSt),
      wrapText cmax fuel st text = some st' →
      st.cursor = st.cur.length → st.cursor ≤ cmax →
      (∀ r ∈ st.rows, r.length ≤ cmax) →
      st'.cursor = st'.cur.length ∧ st'.cursor ≤ cmax ∧
        ∀ r ∈ st'.rows, r.length ≤ cmax := by
  intro fuel
  induction fuel with
  | zero => intro st text st' h; simp [wrapText] at h
  | succ fuel ih =>
    intro st text st' h hcur hle hrows
    unfold wrapText at h
    split at h
    · cases h
      exact ⟨hcur, hle, hrows⟩
    · rename_i hne
      split at h
      · rename_i hfits
        cases h
        refine ⟨by simp [hcur], ?_, hrows⟩
        show st.cursor + text.length ≤ cmax
        omega
      · rename_i hnofit
        refine ih _ _ _ h rfl (Nat.zero_le _) ?_
        intro r hr
        rcases List.mem_append.mp hr with h1 | h1
        · exact hrows r h1
        · simp only [List.mem_singleton] at h1
          subst h1
          simp only [List.length_append, List.length_take]
          omega

theorem wrapChunks_inv (tab_width cmax : Nat) :
    ∀ (chunks : List (String × Bool)) (st : WrapSt) (ct : Nat)
      (st' : WrapSt) (ct' : Nat),
      wrapChunks tab_width cmax (st, ct) chunks = some (st', ct') →
      st.cursor = st.cur.length → st.cursor ≤ cmax →
      (∀ r ∈ st.rows, r.length ≤ cmax) →
      st'.cursor = st'.cur.length ∧ st'.cursor ≤ cmax ∧
        ∀ r ∈ st'.rows, r.length ≤ cmax := by
  intro chunks
  induction chunks with
  | nil =>
    intro st ct st' ct' h hcur hle hrows
    simp [wrapChunks] at h
    obtain ⟨h1, h2⟩ := h
    subst h1
    exact ⟨hcur, hle, hrows⟩
  | cons chunk rest ih =>
    intro st ct st' ct' h hcur hle hrows
    obtain ⟨text, isEscape⟩ := chunk
    unfold wrapChunks at h
    split at h
    · exact ih st ct st' ct' h hcur hle hrows
    · split at h
      · simp at h
      · rename_i stMid hMid
        obtain ⟨hc, hle2, hr2⟩ :=
          wrapText_inv cmax _ st _ stMid hMid hcur hle hrows
        exact ih stMid _ st' ct' h hc hle2 hr2

theorem charWrapBody_bound (tw tab_width : Nat) (decorations : Option String)
    (line_number : Nat) (chunks : List (String × Bool)) (rows : List (List Char))
    (h : charWrapBody tw tab_width decorations line_number chunks = some rows) :
    ∀ r ∈ rows, r.length ≤ charWrapCursorMax tw decorations line_number := by
  unfold charWrapBody at h
  rw [Option.map_eq_some'] at h
  obtain ⟨⟨st, ct⟩, hstc, hrows⟩ := h
  subst hrows
  obtain ⟨hc, hle, hr⟩ :=
    wrapChunks_inv tab_width _ chunks ⟨0, [], []⟩ 0 st ct hstc rfl
      (Nat.zero_le _) (by simp)
  intro r hrm
  rcases List.mem_append.mp hrm with h1 | h1
  · exact hr r h1
  · simp only [List.mem_singleton] at h1
    subst h1
    omega

theorem new2_fst_cases (numbers grid : Bool) (tw : Nat) :
    (new2Decorations numbers grid tw).1 = none ∨
    (new2Decorations numbers grid tw).1 = some " │" ∨
    (new2Decorations numbers grid tw).1 = some "" := by
  cases grid
  · rw [new2_nogrid_eq]
    split
    · right; right; rfl
    · left; rfl
  · rw [new2_grid_eq]
    split
    · right; left; rfl
    · left; rfl

theorem cursorMax_le_gutter (numbers grid : Bool) (tw line_number : Nat) :
    charWrapCursorMax tw ((new2Decorations numbers grid tw).1) line_number
      ≤ tw - gutterWidth ((new2Decorations numbers grid tw).1) line_number := by
  have hlnum : strBytes (lnum line_number false) = (lnum line_number false).length := by
    simp [lnum, strBytes_fmtLnum]
  rcases new2_fst_cases numbers grid tw with hd | hd | hd <;> rw [hd]
  · simp [charWrapCursorMax, gutterWidth]
  · simp only [charWrapCursorMax, gutterWidth]
    apply Nat.sub_le_sub_left
    rw [strBytes_append, hlnum, String.length_append, String.length_append]
    have hone : (" " : String).length = 1 := rfl
    have h2 : (" │" : String).length = 2 := rfl
    have h4 : strBytes " │" = 4 := rfl
    rw [hone, h2, h4]
    omega
  · simp only [charWrapCursorMax, gutterWidth]
    apply Nat.sub_le_sub_left
    rw [strBytes_append, hlnum, String.length_append, String.length_append]
    have hone : (" " : String).length = 1 := rfl
    have h0 : ("" : String).length = 0 := rfl
    have hb0 : strBytes "" = 0 := rfl
    rw [hone, h0, hb0]

/-- Claim C3: in character-wrap mode, the visible character count of every
physical body row that `print_line` emits (gutter decoration excluded, and
zero-width ANSI escape passthrough not counted) is at most
`terminal_width - gutter_width`, for the decorations `InteractivePrinter`
configures. -/
theorem c3_wrap_row_bound (numbers grid : Bool) (tw tab_width line_number : Nat)
    (chunks : List (String × Bool)) (rows : List (List Char))
    (h : charWrapBody tw tab_width ((new2Decorations numbers grid tw).1) line_number chunks
        = some rows)
    (r : List Char) (hr : r ∈ rows) :
    r.length ≤ tw - gutterWidth ((new2Decorations numbers grid tw).1) line_number :=
  le_trans (charWrapBody_bound tw tab_width _ line_number chunks rows h r hr)
    (cursorMax_le_gutter numbers grid tw line_number)

theorem c3_wrap_row_bound_witness :
    (['a', 'b', 'c', 'd', 'e'] : List Char).length
      ≤ 14 - gutterWidth ((new2Decorations true true 14).1) 1 :=
  c3_wrap_row_bound true true 14 0 1 [("abcdefg", false)]
    [['a', 'b', 'c', 'd', 'e'], ['f', 'g']] (by decide)
    ['a', 'b', 'c', 'd', 'e'] (by decide)

/-! ## The width-20 wrap scenario -/

def lineC4 : String := "const LINE: &str = \"abc defghijklmno pqrs tuv wxyz\";"

/-- Claim C4 (amended): at terminal width 20 with numbers and grid on,
character wrap of the 52-visible-character logical line `lineC4` produces
exactly 5 physical rows; the first row's decoration is the 7-character
string `"   1 │ "`, every continuation row's decoration is `"     │ "` of
the same width, and the footer rule uses the junction `┴`. -/
theorem c4_wrap_scenario :
    charWrapRows 20 4 ((new2Decorations true true 20).1) 1 [(lineC4, false)]
      = some ["   1 │ const LINE:", "     │  &str = \"ab", "     │ c defghijkl",
              "     │ mno pqrs tu", "     │ v wxyz\";"] ∧
    lnum 1 false ++ " │" ++ " " = "   1 │ " ∧
    ("   1 │ " : String).length = 7 ∧
    lnum 1 true ++ " │" ++ " " = "     │ " ∧
    ("     │ " : String).length = 7 ∧
    printFooterRule true true (new2Decorations true true 20).2 20
      = some "─────┴──────────────" := by
  decide

/-- Claim C4 counterexample: the quoted logical line has 52 visible
characters, not 46 as the claim states. -/
theorem c4_line_length_counterexample :
    lineC4.length = 52 ∧ lineC4.length ≠ 46 := by
  decide

/-! ## Wrap mode `None` with the plain renderer -/

theorem string_append_assoc (a b c : String) : a ++ b ++ c = a ++ (b ++ c) := by
  apply congrArg String.mk
  show (a.data ++ b.data) ++ c.data = a.data ++ (b.data ++ c.data)
  exact List.append_assoc _ _ _

theorem string_empty_append (s : String) : "" ++ s = s := by
  rcases s with ⟨l⟩
  rfl

theorem noneBody_foldl (regions : List (SublimeStyle × String)) :
    ∀ (acc : String) (ct : Nat),
      (regions.foldl (noneBodyStep 0 ColorizePlain.region) (acc, ct)).1
        = acc ++ concatTexts regions := by
  induction regions with
  | nil => intro acc ct; simp [concatTexts]
  | cons r rs ih =>
    intro acc ct
    obtain ⟨s, t⟩ := r
    rw [List.foldl_cons,
      show noneBodyStep 0 ColorizePlain.region (acc, ct) (s, t) = (acc ++ t, ct) from rfl,
      ih (acc ++ t) ct, concatTexts, string_append_assoc]

/-- Claim C6 (amended): with wrap mode `None`, the plain renderer and tab
expansion disabled (tab width 0), the body output of `print_line` equals
the ordered concatenation of the span texts, followed by a single newline
appended exactly when the line's last byte is not a newline (an existing
trailing newline is never doubled). -/
theorem c6_plain_unwrapped_body (line : String)
    (regions : List (SublimeStyle × String)) :
    printLineNoneBody 0 line regions ColorizePlain.region
      = concatTexts regions ++ (if lastCharIsLF line then "" else "\n") := by
  unfold printLineNoneBody
  rw [noneBody_foldl regions "" 0, string_empty_append]

/-- Claim C6 counterexample: with tab width 4 and a span containing a tab,
the emitted body is the tab-expanded text, not the verbatim span text — the
claim as stated is false for configurations with tab expansion on. -/
theorem c6_tab_expansion_counterexample :
    printLineNoneBody 4 "\t" [(⟨⟨0, 0, 0, 255⟩, false, false, false⟩, "\t")]
        ColorizePlain.region = "    \n" ∧
    printLineNoneBody 4 "\t" [(⟨⟨0, 0, 0, 255⟩, false, false, false⟩, "\t")]
        ColorizePlain.region
      ≠ concatTexts [(⟨⟨0, 0, 0, 255⟩, false, false, false⟩, "\t")]
          ++ (if lastCharIsLF "\t" then "" else "\n") := by
  decide

/-! ## Decode robustness -/

/-- Claim C9: `print_line` never fails on malformed content — Binary
content returns `Ok` immediately with no output at all; strict UTF-16LE/BE
decode failure yields the fixed placeholder string as the line text; every
non-Binary category decodes to some string (no decode condition is an
error); invalid UTF-8 is decoded lossily with replacement characters. -/
theorem c9_print_line_never_fails (ct : ContentType) (bytes : List Nat)
    (decorations : Option String) (tw tab_width : Nat) (wrap : OutputWrap)
    (oor : Bool) (ln : Nat)
    (highlight : String → List (SublimeStyle × String))
    (chunksOf : String → List (String × Bool))
    (encode : SublimeStyle → String → String) :
    (printLine .BINARY decorations tw tab_width wrap oor ln bytes
        highlight chunksOf encode = some "") ∧
    (utf16Decode true bytes = none →
      decodedLine .UTF_16LE bytes = some "Invalid UTF-16LE") ∧
    (utf16Decode false bytes = none →
      decodedLine .UTF_16BE bytes = some "Invalid UTF-16BE") ∧
    (ct ≠ .BINARY → ∃ s, decodedLine ct bytes = some s) ∧
    (decodedLine .UTF_8 bytes = some (utf8LossyString bytes)) ∧
    utf8LossyString [0xFF] = "�" := by
  refine ⟨rfl, ?_, ?_, ?_, rfl, by decide⟩
  · intro h; simp [decodedLine, h]
  · intro h; simp [decodedLine, h]
  · intro h
    cases ct
    · exact absurd rfl h
    all_goals exact ⟨_, rfl⟩

theorem c9_print_line_never_fails_witness :
    decodedLine .UTF_16LE [0x00] = some "Invalid UTF-16LE" ∧
    (∃ s, decodedLine .UTF_16LE [0x00] = some s) :=
  ⟨(c9_print_line_never_fails .UTF_16LE [0x00] none 0 0 .noneWrap false 0
      (fun _ => []) (fun _ => []) (fun _ t => t)).2.1 (by decide),
   (c9_print_line_never_fails .UTF_16LE [0x00] none 0 0 .noneWrap false 0
      (fun _ => []) (fun _ => []) (fun _ t => t)).2.2.2.1 (by decide)⟩

end Prettyprint
